import Mathlib

/-
Verification of the reconciliation engine of data_comp_app.py.

The embedding models:
  * cell values (`Val`) with a single null marker (pandas NaN/NA) and the
    pandas elementwise equality semantics (NaN compares unequal to everything,
    including itself), versus the merge-key semantics (NaN joins with NaN);
  * rows as association lists from column name to value, in column order;
  * the helper functions make_key, diff_desc (lines 98-113 of the source);
  * the comparison pipeline of the run block (lines 272-300): the left merge
    producing the full-row-mismatch view, the outer merge producing the
    key-set "new" view, the de-duplication filter, the concatenated output,
    and the summary numbers (pct, dropped, added).
  * the type normalizer `cast` (lines 84-95) over a richer value type `CVal`,
    with the relevant pandas primitives (to_numeric/to_datetime with
    errors="coerce", astype) modelled cell-wise; the string-to-number and
    string-to-date parsing grammars are external pandas behaviour and are
    taken as parameters.

The constant Created_Date annotation column is omitted: it is a fixed string
attached to every output row and plays no role in any comparison.
-/

/-- Cell value of a dataset: a string, an integer, or the null marker
(pandas NaN). -/
inductive Val where
  | str : String → Val
  | int : Int → Val
  | null : Val
deriving DecidableEq, Repr

/-- Models pandas elementwise equality (the == used in diff_desc): the null
marker compares unequal to everything, including itself (NaN != NaN);
all other values compare structurally. -/
def pdEq : Val → Val → Bool
  | Val.null, _ => false
  | _, Val.null => false
  | v, w => decide (v = w)

/-- Models pd.isna on one cell. -/
def Val.isna : Val → Bool
  | Val.null => true
  | _ => false

/-- Models Python str() of a cell value: strings render as themselves,
integers in decimal, and the null marker as "nan" (str of float nan). -/
def pyStr : Val → String
  | Val.str s => s
  | Val.int n => toString n
  | Val.null => "nan"

/-- A row of a DataFrame: an association list from column name to cell
value, in column order (the row's index). -/
abbrev Row := List (String × Val)

/-- Models r[c] on a row Series: the first entry for column c, or a KeyError
(none) when the column is absent. -/
def getCell (r : Row) (c : String) : Option Val :=
  (r.find? (fun p => decide (p.1 = c))).map Prod.snd

/-- A DataFrame: a column list and an ordered list of rows. Well-formed
frames have every row's column list equal to cols; the definitions below
read cells by name, so they only depend on that alignment. -/
structure DataFrame where
  cols : List String
  rows : List Row

/-- Value of a key column of a row as read by make_key; key columns are
present in every context where make_key is applied (absence would raise in
the source, which never happens after the app's key checks). -/
def keyVal (r : Row) (k : String) : Val :=
  (getCell r k).getD Val.null

/-- Models Python "||".join over a list of strings. -/
def joinSep : List String → String
  | [] => ""
  | [s] => s
  | s :: rest => s ++ "||" ++ joinSep rest

/-- Models make_key (line 98-99): the stringified key-column values joined
with the separator "||". -/
def make_key (r : Row) (keys : List String) : String :=
  joinSep (keys.map (fun k => pyStr (keyVal r k)))

/-- Guard of diff_desc: building the key mask evaluates cur[k] and r[k] for
every key column, raising a KeyError when one is absent. -/
def keysPresent (r : Row) (cur : DataFrame) (keys : List String) : Bool :=
  keys.all (fun k => decide (k ∈ cur.cols) && (getCell r k).isSome)

/-- Pandas equality of two optional cells (a missing cell matches nothing);
used pointwise for the mask cur[k] == r[k]. -/
def optPdEq : Option Val → Option Val → Bool
  | some a, some b => pdEq a b
  | _, _ => false

/-- One current row passes the diff_desc key mask when every key column
compares equal under pandas equality (lines 103-105). -/
def keyMatch (r : Row) (keys : List String) (row : Row) : Bool :=
  keys.all (fun k => optPdEq (getCell row k) (getCell r k))

/-- Cell triples (column, previous value, current value) gathered over the
previous row's own index (line 111: for c in r.index); a column absent from
the matched current row raises a KeyError (line 110: new[c]). -/
def cellTriples : Row → Row → Except Unit (List (String × Val × Val))
  | [], _ => Except.ok []
  | (c, rv) :: rest, new =>
    match getCell new c with
    | none => Except.error ()
    | some nv =>
      match cellTriples rest new with
      | Except.error e => Except.error e
      | Except.ok ts => Except.ok ((c, rv, nv) :: ts)

/-- Filter of line 112: a column is reported unless both sides are null
(pd.isna on both) or the values compare equal (r[c] != new[c], pandas
semantics: nan != v is true for every v). -/
def reported : String × Val × Val → Bool
  | (_, rv, nv) => !(rv.isna && nv.isna) && !(pdEq rv nv)

/-- Rendering of one reported difference (line 110). -/
def mkItem : String × Val × Val → String
  | (c, rv, nv) => c ++ ": " ++ pyStr rv ++ " != " ++ pyStr nv

/-- Models Python ", ".join. -/
def joinComma : List String → String
  | [] => ""
  | [s] => s
  | s :: rest => s ++ ", " ++ joinComma rest

/-- Sentinel descriptor for a previous row whose key has no match. -/
def missingSentinel : String := "Row is missing from latest upload"

/-- Models diff_desc (lines 102-113): build the key mask over the current
frame, return the Missing sentinel when no row passes, otherwise compare
the previous row column by column against the first passing row and join
the reported differences. -/
def diff_desc (r : Row) (cur : DataFrame) (keys : List String) :
    Except Unit String :=
  if keysPresent r cur keys then
    match cur.rows.filter (keyMatch r keys) with
    | [] => Except.ok missingSentinel
    | new :: _ =>
      match cellTriples r new with
      | Except.error e => Except.error e
      | Except.ok ts =>
        Except.ok (joinComma ((ts.filter reported).map mkItem))
  else Except.error ()

/-- Columns on which pd.merge joins when no explicit key is given: the
columns common to both frames. -/
def commonCols (a b : DataFrame) : List String :=
  a.cols.filter (fun c => decide (c ∈ b.cols))

/-- Merge-key equality of two rows on the given columns: pd.merge joins
null keys with null keys, so this is structural equality of the optional
cells. -/
def mergeMatch (common : List String) (r s : Row) : Bool :=
  common.all (fun c => decide (getCell r c = getCell s c))

/-- Rows of the left frame marked left_only by an indicator merge with the
right frame: no right row agrees on all common columns. Left order is
preserved, matching pandas. -/
def leftOnly (left right : DataFrame) : List Row :=
  left.rows.filter
    (fun r => !(right.rows.any (fun s => mergeMatch (commonCols left right) r s)))

/-- Columns the merge adds to a left_only row (columns only the other frame
has), filled with null. -/
def extendRow (r : Row) (extra : List String) : Row :=
  r ++ extra.map (fun c => (c, Val.null))

/-- Rows of `diff` (lines 272-273): previous rows with no full-row match in
current, carrying the merged column index (previous columns, then
current-only columns as null). -/
def diffRowsOf (prev curr : DataFrame) : List Row :=
  (leftOnly prev curr).map
    (fun r => extendRow r (curr.cols.filter (fun c => !(decide (c ∈ prev.cols)))))

/-- Rows of `new` (lines 281-282): current rows with no full-row match in
previous, carrying the merged column index. -/
def newRowsOf (prev curr : DataFrame) : List Row :=
  (leftOnly curr prev).map
    (fun r => extendRow r (prev.cols.filter (fun c => !(decide (c ∈ curr.cols)))))

/-- The annotated full-row-mismatch view (lines 273-279): each diff row
paired with its diff_desc descriptor; a raised KeyError aborts the run. -/
def diffTable (prev curr : DataFrame) (keys : List String) :
    Except Unit (List (Row × String)) :=
  (diffRowsOf prev curr).mapM
    (fun r => Except.map (fun d => (r, d)) (diff_desc r curr keys))

/-- The annotated key-set "new" view before de-duplication (lines 281-285). -/
def newTable (prev curr : DataFrame) : List (Row × String) :=
  (newRowsOf prev curr).map (fun r => (r, "New row in current upload"))

/-- diff_keys (line 287): the key strings of the mismatch rows. -/
def diffKeysOf (dt : List (Row × String)) (keys : List String) : List String :=
  dt.map (fun rd => make_key rd.1 keys)

/-- De-duplication filter of lines 288-290: keep only new rows whose key
string is not among the mismatch keys. -/
def filteredNew (prev curr : DataFrame) (keys : List String)
    (dt : List (Row × String)) : List (Row × String) :=
  (newTable prev curr).filter
    (fun rd => !(decide (make_key rd.1 keys ∈ diffKeysOf dt keys)))

/-- The final discrepancy table `out` (line 292): mismatch rows followed by
the de-duplicated new rows. -/
def reconcile (prev curr : DataFrame) (keys : List String) :
    Except Unit (List (Row × String)) :=
  Except.map (fun dt => dt ++ filteredNew prev curr keys dt)
    (diffTable prev curr keys)

/-- Key set of a frame (lines 298-299): the set of make_key strings of its
rows. -/
def keySet (df : DataFrame) (keys : List String) : Finset String :=
  (df.rows.map (fun r => make_key r keys)).toFinset

/-- dropped (line 300): keys of previous absent from current. -/
def droppedCount (prev curr : DataFrame) (keys : List String) : Nat :=
  (keySet prev keys \ keySet curr keys).card

/-- added (line 300): keys of current absent from previous. -/
def addedCount (prev curr : DataFrame) (keys : List String) : Nat :=
  (keySet curr keys \ keySet prev keys).card

/-- pct (line 297): nm / pc * 100 if pc else 0, in exact rational
arithmetic. -/
def pctStat (pc nm : Nat) : ℚ :=
  if pc = 0 then 0 else (nm : ℚ) / (pc : ℚ) * 100

/-- Cell value for the type normalizer `cast` (lines 84-95): strings,
integers, floats (exact rationals), datetimes (an abstract instant on the
epoch timeline, kept as an exact rational so integer and float epochs both
embed), booleans, and the null marker (NaN / NaT / NA). -/
inductive CVal where
  | str : String → CVal
  | int : Int → CVal
  | rat : ℚ → CVal
  | dt : ℚ → CVal
  | bool : Bool → CVal
  | null : CVal
deriving DecidableEq, Repr

/-- Rendering used by astype(str); the float and datetime renderings are
abstracted (no claim depends on them), the null marker renders as "nan". -/
def pyStrC : CVal → String
  | CVal.str s => s
  | CVal.int n => toString n
  | CVal.rat q => toString q
  | CVal.dt n => toString n
  | CVal.bool b => if b then "True" else "False"
  | CVal.null => "nan"

/-- Models pd.to_numeric(s, errors="coerce") on one cell: numbers pass
through, booleans become 0/1, strings go through the numeric parser pnum
(the pandas numeric grammar, taken as a parameter), datetimes become their
numeric epoch instant, and anything unparsable becomes NaN instead of
raising. -/
def to_numeric_cell (pnum : String → Option ℚ) : CVal → CVal
  | CVal.str s =>
    match pnum s with
    | some q => CVal.rat q
    | none => CVal.null
  | CVal.int n => CVal.int n
  | CVal.rat q => CVal.rat q
  | CVal.bool b => CVal.int (if b then 1 else 0)
  | CVal.dt q => CVal.rat q
  | CVal.null => CVal.null

/-- Models .astype("Int64") on the result of to_numeric: NaN becomes NA
(null), integral numbers cast, and a float with a fractional part raises
(pandas refuses the unsafe float-to-int cast). -/
def astype_Int64 : CVal → Except Unit CVal
  | CVal.rat q => if q.den = 1 then Except.ok (CVal.int q.num) else Except.error ()
  | CVal.int n => Except.ok (CVal.int n)
  | CVal.null => Except.ok CVal.null
  | CVal.bool b => Except.ok (CVal.int (if b then 1 else 0))
  | _ => Except.error ()

/-- Models .astype(float) on the result of to_numeric: total. -/
def astype_float : CVal → CVal
  | CVal.rat q => CVal.rat q
  | CVal.int n => CVal.rat (n : ℚ)
  | CVal.bool b => CVal.rat (if b then 1 else 0)
  | CVal.null => CVal.null
  | v => v

/-- Models pd.to_datetime(s, errors="coerce") on one cell: datetimes pass
through, strings go through the calendar parser pdate (external pandas
grammar, taken as a parameter), integers and floats are read as epoch
instants, and anything unparsable becomes NaT (null) instead of raising. -/
def to_datetime_cell (pdate : String → Option ℚ) : CVal → CVal
  | CVal.str s =>
    match pdate s with
    | some d => CVal.dt d
    | none => CVal.null
  | CVal.dt d => CVal.dt d
  | CVal.int n => CVal.dt (n : ℚ)
  | CVal.rat q => CVal.dt q
  | _ => CVal.null

/-- Models .astype("boolean") on one cell: booleans and NA pass through,
the bool-like numbers 0 and 1 convert, and anything else - in particular
any string - raises instead of coercing. -/
def astype_boolean : CVal → Except Unit CVal
  | CVal.bool b => Except.ok (CVal.bool b)
  | CVal.null => Except.ok CVal.null
  | CVal.int n =>
    if n = 0 ∨ n = 1 then Except.ok (CVal.bool (decide (n = 1))) else Except.error ()
  | CVal.rat q =>
    if q = 0 ∨ q = 1 then Except.ok (CVal.bool (decide (q = 1))) else Except.error ()
  | _ => Except.error ()

namespace Normalizer

/-- Models cast (lines 84-95) over a column of cells, with the two string
parsing grammars as parameters; an unknown kind returns the column
unchanged (line 95). The name is qualified because Lean reserves `cast`. -/
def cast (pnum : String → Option ℚ) (pdate : String → Option ℚ)
    (s : List CVal) (kind : String) : Except Unit (List CVal) :=
  if kind = "string" then Except.ok (s.map (fun v => CVal.str (pyStrC v)))
  else if kind = "int" then s.mapM (fun v => astype_Int64 (to_numeric_cell pnum v))
  else if kind = "float" then Except.ok (s.map (fun v => astype_float (to_numeric_cell pnum v)))
  else if kind = "datetime" then Except.ok (s.map (to_datetime_cell pdate))
  else if kind = "bool" then s.mapM astype_boolean
  else Except.ok s

end Normalizer

/-- A row always full-row-matches itself on any column set. -/
lemma mergeMatch_self (common : List String) (r : Row) :
    mergeMatch common r r = true := by
  simp [mergeMatch]

/-- An indicator merge of a frame with itself marks no row left_only. -/
lemma leftOnly_self (A : DataFrame) : leftOnly A A = [] := by
  rw [leftOnly, List.filter_eq_nil_iff]
  intro r hr h
  rw [Bool.not_eq_true', List.any_eq_false] at h
  exact h r hr (mergeMatch_self _ r)

/-- C1: reconciling a dataset against itself (same rows, same order, same
values) yields an empty discrepancy table and dropped = added = 0, for any
non-empty key selection. -/
theorem reconcile_self_empty (A : DataFrame) (keys : List String)
    (hk : keys ≠ []) :
    reconcile A A keys = Except.ok [] ∧
      droppedCount A A keys = 0 ∧ addedCount A A keys = 0 := by
  refine ⟨?_, ?_, ?_⟩
  · simp [reconcile, diffTable, diffRowsOf, newTable, newRowsOf, filteredNew,
      leftOnly_self, Except.map, List.mapM.loop, pure, Except.pure]
  · simp [droppedCount, Finset.sdiff_self]
  · simp [addedCount, Finset.sdiff_self]

/-- Witness for C1 at a concrete one-row dataset with key column id. -/
theorem reconcile_self_empty_witness :
    reconcile (DataFrame.mk ["id"] [[("id", Val.int 1)]])
        (DataFrame.mk ["id"] [[("id", Val.int 1)]]) ["id"] = Except.ok [] ∧
      droppedCount (DataFrame.mk ["id"] [[("id", Val.int 1)]])
        (DataFrame.mk ["id"] [[("id", Val.int 1)]]) ["id"] = 0 ∧
      addedCount (DataFrame.mk ["id"] [[("id", Val.int 1)]])
        (DataFrame.mk ["id"] [[("id", Val.int 1)]]) ["id"] = 0 :=
  reconcile_self_empty _ _ (by decide)

/-- C2: a key string that labels a row of the full-row-mismatch view is
never also the key of a row kept by the key-set new view: the
de-duplication filter removes every new row whose make_key string already
occurs among the mismatch rows' keys. -/
theorem dedup_keys (prev curr : DataFrame) (keys : List String)
    (dt : List (Row × String))
    (hdt : diffTable prev curr keys = Except.ok dt)
    (k : String) (hk : k ∈ diffKeysOf dt keys) :
    k ∉ (filteredNew prev curr keys dt).map (fun rd => make_key rd.1 keys) := by
  intro hmem
  obtain ⟨rd, hrd, hkey⟩ := List.mem_map.mp hmem
  simp only [filteredNew] at hrd
  have h2 := (List.mem_filter.mp hrd).2
  rw [Bool.not_eq_true', decide_eq_false_iff_not] at h2
  exact h2 (hkey ▸ hk)

/-- Witness for C2: previous has the single key "1", current is empty, so
the mismatch view holds key "1" and the theorem excludes it from the
filtered new view. -/
theorem dedup_keys_witness :
    "1" ∉ (filteredNew (DataFrame.mk ["id"] [[("id", Val.int 1)]])
        (DataFrame.mk ["id"] []) ["id"]
        [([("id", Val.int 1)], missingSentinel)]).map
        (fun rd => make_key rd.1 ["id"]) :=
  dedup_keys _ _ _ _ (by rfl) _ (by decide)

/-- C10: the dropped count of (prev, curr) is by construction the added
count of the swapped pair (curr, prev): both are the cardinality of the
same key-set difference. -/
theorem dropped_added_swap (prev curr : DataFrame) (keys : List String) :
    droppedCount prev curr keys = addedCount curr prev keys := rfl

/-- Every triple gathered by cellTriples pairs an entry of the previous row
with the matched row's cell of the same column. -/
lemma cellTriples_mem : ∀ (r new : Row) (ts : List (String × Val × Val)),
    cellTriples r new = Except.ok ts →
    ∀ t ∈ ts, (t.1, t.2.1) ∈ r ∧ getCell new t.1 = some t.2.2 := by
  intro r
  induction r with
  | nil =>
    intro new ts h t ht
    simp only [cellTriples] at h
    cases h
    simp at ht
  | cons p rest ih =>
    intro new ts h t ht
    obtain ⟨c, rv⟩ := p
    simp only [cellTriples] at h
    cases hcell : getCell new c with
    | none => rw [hcell] at h; cases h
    | some nv =>
      rw [hcell] at h
      cases hrec : cellTriples rest new with
      | error e => rw [hrec] at h; cases h
      | ok ts0 =>
        rw [hrec] at h
        cases h
        rcases List.mem_cons.mp ht with h1 | h1
        · subst h1; exact ⟨List.mem_cons_self _ _, hcell⟩
        · obtain ⟨ha, hb⟩ := ih new ts0 hrec t h1
          exact ⟨List.mem_cons_of_mem _ ha, hb⟩

/-- In a row with no duplicate column names, a column determines its value. -/
lemma assoc_nodup_unique : ∀ (r : Row) (c : String) (a b : Val),
    (r.map Prod.fst).Nodup → (c, a) ∈ r → (c, b) ∈ r → a = b := by
  intro r
  induction r with
  | nil => intro c a b _ ha _; simp at ha
  | cons p rest ih =>
    intro c a b hnd ha hb
    rw [List.map_cons, List.nodup_cons] at hnd
    rcases List.mem_cons.mp ha with h1 | h1 <;> rcases List.mem_cons.mp hb with h2 | h2
    · rw [← h1] at h2
      rw [Prod.mk.injEq] at h2
      exact h2.2.symm
    · exfalso
      apply hnd.1
      have hc2 : c ∈ List.map Prod.fst rest := by
        simpa using List.mem_map_of_mem Prod.fst h2
      have hp : p.1 = c := by rw [← h1]
      rw [hp]
      exact hc2
    · exfalso
      apply hnd.1
      have hc2 : c ∈ List.map Prod.fst rest := by
        simpa using List.mem_map_of_mem Prod.fst h1
      have hp : p.1 = c := by rw [← h2]
      rw [hp]
      exact hc2
    · exact ih c a b hnd.2 h1 h2

/-- C4: a column that is null on the previous side and null on the matched
current side is never among the reported columns of the Modified
descriptor: the filter of line 112 drops it, so no item of the rendered
descriptor mentions it. -/
theorem both_null_not_reported (r new : Row) (c : String)
    (hnd : (r.map Prod.fst).Nodup) (hc : (c, Val.null) ∈ r)
    (hnv : getCell new c = some Val.null)
    (ts : List (String × Val × Val)) (hts : cellTriples r new = Except.ok ts) :
    c ∉ (ts.filter reported).map (fun t => t.1) := by
  intro hmem
  obtain ⟨t, ht, hteq⟩ := List.mem_map.mp hmem
  obtain ⟨hts2, hrep⟩ := List.mem_filter.mp ht
  obtain ⟨hin, hcell⟩ := cellTriples_mem r new ts hts t hts2
  obtain ⟨c0, rv, nv⟩ := t
  simp only at hteq hin hcell hrep
  rw [hteq] at hin hcell
  have h1 : rv = Val.null := assoc_nodup_unique r c rv Val.null hnd hin hc
  have h2 : nv = Val.null := by
    rw [hnv] at hcell
    exact (Option.some.inj hcell).symm
  rw [h1, h2] at hrep
  simp [reported, Val.isna] at hrep

/-- Witness for C4 at a concrete row pair whose column v is null on both
sides. -/
theorem both_null_not_reported_witness :
    "v" ∉ ((([("id", Val.int 1, Val.int 1), ("v", Val.null, Val.null)] :
        List (String × Val × Val)).filter reported).map (fun t => t.1)) :=
  both_null_not_reported [("id", Val.int 1), ("v", Val.null)]
    [("id", Val.int 1), ("v", Val.null)] "v" (by decide) (by decide) (by rfl)
    _ (by rfl)

/-- Concrete previous row with a null key value. -/
def exC3row : Row := [("id", Val.null), ("v", Val.str "a")]

/-- Concrete current frame containing the identical row (same null key,
equal non-null values). -/
def exC3cur : DataFrame := ⟨["id", "v"], [[("id", Val.null), ("v", Val.str "a")]]⟩

/-- C3 counterexample: the current frame holds a row identical to the
previous row (its key cell is the same null), yet diff_desc reports the
previous row as Missing, because the key mask uses pandas equality and
NaN == NaN is false. The claim that the matcher treats two null key cells
as equal is false on the code. -/
theorem null_key_reported_missing_cex :
    exC3cur.rows = [exC3row] ∧
      getCell exC3row "id" = some Val.null ∧
      diff_desc exC3row exC3cur ["id"] = Except.ok missingSentinel :=
  ⟨rfl, rfl, rfl⟩

/-- C3 as amended: in diff_desc a null key cell matches nothing, so a
previous row with a null in a selected key column is always reported with
the Missing sentinel, whatever the current rows hold. -/
theorem null_key_always_missing (r : Row) (cur : DataFrame)
    (keys : List String) (k : String) (hk : k ∈ keys)
    (hnull : getCell r k = some Val.null)
    (hg : keysPresent r cur keys = true) :
    diff_desc r cur keys = Except.ok missingSentinel := by
  have hfilter : cur.rows.filter (keyMatch r keys) = [] := by
    rw [List.filter_eq_nil_iff]
    intro row _ hmatch
    rw [keyMatch, List.all_eq_true] at hmatch
    have hbad := hmatch k hk
    rw [hnull] at hbad
    have hfalse : optPdEq (getCell row k) (some Val.null) = false := by
      cases getCell row k with
      | none => rfl
      | some v => cases v <;> rfl
    rw [hfalse] at hbad
    cases hbad
  simp only [diff_desc, if_pos hg, hfilter]

/-- Witness for the amended C3 at the concrete null-keyed row. -/
theorem null_key_always_missing_witness :
    diff_desc exC3row exC3cur ["id"] = Except.ok missingSentinel :=
  null_key_always_missing _ _ _ "id" (by decide) (by rfl) (by rfl)

/-- C5: only the first row (in current order) passing the key mask is used
by diff_desc: the result is unchanged if the current frame is replaced by
one holding just that first match. -/
theorem first_match_used (r : Row) (cur : DataFrame) (keys : List String)
    (first : Row) (rest : List Row)
    (hg : keysPresent r cur keys = true)
    (hf : cur.rows.filter (keyMatch r keys) = first :: rest) :
    diff_desc r cur keys = diff_desc r (DataFrame.mk cur.cols [first]) keys := by
  have hm : keyMatch r keys first = true := by
    have hmem : first ∈ cur.rows.filter (keyMatch r keys) := by
      rw [hf]; exact List.mem_cons_self _ _
    exact (List.mem_filter.mp hmem).2
  have hone : List.filter (keyMatch r keys) [first] = [first] := by
    simp [hm]
  have hg2 : keysPresent r (DataFrame.mk cur.cols [first]) keys = true := hg
  simp only [diff_desc, if_pos hg, if_pos hg2, hf, hone]

/-- Concrete current frame of the spec's duplicate-key example. -/
def exC5cur : DataFrame := ⟨["id", "v"], [[("id", Val.int 1), ("v", Val.str "a")]]⟩

/-- First previous row of the example (exact match). -/
def exC5r1 : Row := [("id", Val.int 1), ("v", Val.str "a")]

/-- Second previous row of the example (same key, changed v). -/
def exC5r2 : Row := [("id", Val.int 1), ("v", Val.str "b")]

/-- Witness for C5: both previous rows of the example are compared against
the same (first and only) current row; the first yields an empty diff and
the second reports v: b != a. -/
theorem first_match_used_witness :
    diff_desc exC5r2 exC5cur ["id"] =
        diff_desc exC5r2
          (DataFrame.mk exC5cur.cols [[("id", Val.int 1), ("v", Val.str "a")]])
          ["id"] ∧
      diff_desc exC5r1 exC5cur ["id"] = Except.ok "" ∧
      diff_desc exC5r2 exC5cur ["id"] = Except.ok "v: b != a" :=
  ⟨first_match_used _ _ _ _ [] (by rfl) (by rfl), by rfl, by rfl⟩

/-- When some column of the previous row is absent from the matched current
row, gathering the cell triples raises (new[c] is a KeyError). -/
lemma cellTriples_missing : ∀ (r new : Row) (c : String) (rv : Val),
    (c, rv) ∈ r → getCell new c = none →
    cellTriples r new = Except.error () := by
  intro r
  induction r with
  | nil => intro new c rv h _; simp at h
  | cons p rest ih =>
    intro new c rv hmem hnone
    obtain ⟨c0, v0⟩ := p
    simp only [cellTriples]
    cases hcell : getCell new c0 with
    | none => rfl
    | some nv =>
      rcases List.mem_cons.mp hmem with h1 | h1
      · exfalso
        rw [Prod.mk.injEq] at h1
        rw [← h1.1] at hcell
        rw [hnone] at hcell
        cases hcell
      · rw [ih new c rv h1 hnone]

/-- Concrete previous-side row carrying the extra column x. -/
def exC7r : Row := [("id", Val.int 1), ("v", Val.str "a"), ("x", Val.str "q")]

/-- Concrete current frame lacking the column x; its only row key-matches
the previous row but differs in v, so the differ walks the columns. -/
def exC7cur : DataFrame := ⟨["id", "v"], [[("id", Val.int 1), ("v", Val.str "b")]]⟩

/-- C7 counterexample: the non-key column x referenced during diffing is
missing on the current side, and diff_desc raises (KeyError) instead of
treating the missing value as null and continuing. -/
theorem missing_col_raises_cex :
    ("x", Val.str "q") ∈ exC7r ∧
      getCell [("id", Val.int 1), ("v", Val.str "b")] "x" = none ∧
      diff_desc exC7r exC7cur ["id"] = Except.error () :=
  ⟨by decide, rfl, rfl⟩

/-- C7 as amended: whenever a key match is found and some column of the
previous row is absent from the matched current row, diff_desc raises
rather than treating the missing cell as null. -/
theorem missing_col_raises (r : Row) (cur : DataFrame) (keys : List String)
    (first : Row) (rest : List Row) (c : String) (rv : Val)
    (hg : keysPresent r cur keys = true)
    (hf : cur.rows.filter (keyMatch r keys) = first :: rest)
    (hc : (c, rv) ∈ r) (hmiss : getCell first c = none) :
    diff_desc r cur keys = Except.error () := by
  simp only [diff_desc, if_pos hg, hf]
  rw [cellTriples_missing r first c rv hc hmiss]

/-- Witness for the amended C7 at the concrete frames. -/
theorem missing_col_raises_witness :
    diff_desc exC7r exC7cur ["id"] = Except.error () :=
  missing_col_raises _ _ _ [("id", Val.int 1), ("v", Val.str "b")] [] "x"
    (Val.str "q") (by rfl) (by rfl) (by decide) (by rfl)

/-- C8: the percentage statistic is the discrepancy count over the previous
row count times 100, is 0 when the previous dataset is empty (no division
by zero), and is never negative. -/
theorem pct_formula (prev curr : DataFrame) (keys : List String)
    (out : List (Row × String))
    (h : reconcile prev curr keys = Except.ok out) :
    (prev.rows.length = 0 → pctStat prev.rows.length out.length = 0) ∧
      (prev.rows.length ≠ 0 →
        pctStat prev.rows.length out.length =
          (out.length : ℚ) / (prev.rows.length : ℚ) * 100) ∧
      0 ≤ pctStat prev.rows.length out.length := by
  refine ⟨?_, ?_, ?_⟩
  · intro h0; simp [pctStat, h0]
  · intro h0; simp [pctStat, h0]
  · rw [pctStat]
    split_ifs
    · exact le_refl 0
    · positivity

/-- Concrete empty previous frame of the spec's third example. -/
def exC8prev : DataFrame := ⟨["id", "val"], []⟩

/-- Concrete one-row current frame of the spec's third example. -/
def exC8curr : DataFrame := ⟨["id", "val"], [[("id", Val.int 5), ("val", Val.str "x")]]⟩

/-- The discrepancy table the pipeline produces for the third example. -/
def exC8out : List (Row × String) :=
  [([("id", Val.int 5), ("val", Val.str "x")], "New row in current upload")]

/-- Witness for C8: previous empty and current one row yields a single New
record and a percentage of 0. -/
theorem pct_formula_witness :
    (exC8prev.rows.length = 0 → pctStat exC8prev.rows.length exC8out.length = 0) ∧
      (exC8prev.rows.length ≠ 0 →
        pctStat exC8prev.rows.length exC8out.length =
          (exC8out.length : ℚ) / (exC8prev.rows.length : ℚ) * 100) ∧
      0 ≤ pctStat exC8prev.rows.length exC8out.length :=
  pct_formula exC8prev exC8curr ["id"] exC8out (by rfl)

/-- Two separator-terminated prefixes of one character list agree when
neither prefix contains the bar character. -/
lemma bar_sep_inj : ∀ (A B s t : List Char), '|' ∉ A → '|' ∉ B →
    A ++ '|' :: '|' :: s = B ++ '|' :: '|' :: t → A = B ∧ s = t := by
  intro A
  induction A with
  | nil =>
    intro B s t _ hB h
    cases B with
    | nil =>
      simp only [List.nil_append, List.cons.injEq] at h
      exact ⟨rfl, h.2.2⟩
    | cons b B2 =>
      exfalso
      simp only [List.nil_append, List.cons_append, List.cons.injEq] at h
      exact hB (by rw [← h.1]; exact List.mem_cons_self _ _)
  | cons a A2 ih =>
    intro B s t hA hB h
    cases B with
    | nil =>
      exfalso
      simp only [List.nil_append, List.cons_append, List.cons.injEq] at h
      exact hA (by rw [h.1]; exact List.mem_cons_self _ _)
    | cons b B2 =>
      simp only [List.cons_append, List.cons.injEq] at h
      obtain ⟨h1, h2⟩ := h
      obtain ⟨hAB, hst⟩ := ih B2 s t
        (fun hm => hA (List.mem_cons_of_mem _ hm))
        (fun hm => hB (List.mem_cons_of_mem _ hm)) h2
      exact ⟨by rw [h1, hAB], hst⟩

/-- joinSep is injective on lists of equal length whose entries are free of
the bar character. -/
lemma joinSep_inj : ∀ (xs ys : List String), xs.length = ys.length →
    (∀ s ∈ xs, '|' ∉ s.data) → (∀ s ∈ ys, '|' ∉ s.data) →
    joinSep xs = joinSep ys → xs = ys := by
  intro xs
  induction xs with
  | nil =>
    intro ys hlen _ _ _
    cases ys with
    | nil => rfl
    | cons b bs => simp at hlen
  | cons a as ih =>
    intro ys hlen hx hy h
    cases ys with
    | nil => simp at hlen
    | cons b bs =>
      cases as with
      | nil =>
        cases bs with
        | nil => rw [show joinSep [a] = a from rfl, show joinSep [b] = b from rfl] at h; rw [h]
        | cons b2 bs2 => simp at hlen
      | cons a2 as2 =>
        cases bs with
        | nil => simp at hlen
        | cons b2 bs2 =>
          have hL : joinSep (a :: a2 :: as2) = a ++ "||" ++ joinSep (a2 :: as2) := rfl
          have hR : joinSep (b :: b2 :: bs2) = b ++ "||" ++ joinSep (b2 :: bs2) := rfl
          rw [hL, hR] at h
          have hdata := congrArg String.data h
          rw [String.data_append, String.data_append, String.data_append,
            String.data_append, List.append_assoc, List.append_assoc] at hdata
          have hsep : ("||" : String).data = ['|', '|'] := rfl
          rw [hsep] at hdata
          obtain ⟨hab, hrest⟩ := bar_sep_inj a.data b.data
            (joinSep (a2 :: as2)).data (joinSep (b2 :: bs2)).data
            (hx a (List.mem_cons_self _ _)) (hy b (List.mem_cons_self _ _)) hdata
          have htails : joinSep (a2 :: as2) = joinSep (b2 :: bs2) := String.ext hrest
          have hlen2 : (a2 :: as2).length = (b2 :: bs2).length := by
            simpa using hlen
          have := ih (b2 :: bs2) hlen2
            (fun s hs => hx s (List.mem_cons_of_mem _ hs))
            (fun s hs => hy s (List.mem_cons_of_mem _ hs)) htails
          rw [String.ext hab, this]

/-- C9 counterexample: the "||"-joined key string collides (i) when a key
value contains the separator, (ii) when a key value ends in a single bar,
and (iii) when a null key and the string "nan" stringify alike - in each
case two rows with different key-column value tuples get the same key
string. -/
theorem make_key_collision_cex :
    make_key [("a", Val.str "x||y"), ("b", Val.str "z")] ["a", "b"] =
        make_key [("a", Val.str "x"), ("b", Val.str "y||z")] ["a", "b"] ∧
      keyVal [("a", Val.str "x||y"), ("b", Val.str "z")] "a" ≠
        keyVal [("a", Val.str "x"), ("b", Val.str "y||z")] "a" ∧
      make_key [("a", Val.str "x|"), ("b", Val.str "y")] ["a", "b"] =
        make_key [("a", Val.str "x"), ("b", Val.str "|y")] ["a", "b"] ∧
      make_key [("a", Val.null)] ["a"] = make_key [("a", Val.str "nan")] ["a"] ∧
      keyVal [("a", Val.null)] "a" ≠ keyVal [("a", Val.str "nan")] "a" :=
  ⟨by decide, by decide, by decide, by decide, by decide⟩

/-- C9 as amended: make_key is injective in the key values as long as the
stringified key values contain no bar character and the stringified tuples
differ somewhere; collisions require a bar in some value (or two values
that stringify alike, such as null and "nan"). -/
theorem make_key_inj_barfree (r1 r2 : Row) (keys : List String)
    (h1 : ∀ k ∈ keys, '|' ∉ (pyStr (keyVal r1 k)).data)
    (h2 : ∀ k ∈ keys, '|' ∉ (pyStr (keyVal r2 k)).data)
    (hdiff : ∃ k ∈ keys, pyStr (keyVal r1 k) ≠ pyStr (keyVal r2 k)) :
    make_key r1 keys ≠ make_key r2 keys := by
  intro heq
  obtain ⟨k, hk, hne⟩ := hdiff
  have hmaps : keys.map (fun k => pyStr (keyVal r1 k)) =
      keys.map (fun k => pyStr (keyVal r2 k)) := by
    apply joinSep_inj
    · simp
    · intro s hs
      obtain ⟨k0, hk0, rfl⟩ := List.mem_map.mp hs
      exact h1 k0 hk0
    · intro s hs
      obtain ⟨k0, hk0, rfl⟩ := List.mem_map.mp hs
      exact h2 k0 hk0
    · exact heq
  exact hne (List.map_eq_map_iff.mp hmaps k hk)

/-- Witness for the amended C9 at two bar-free single-column rows. -/
theorem make_key_inj_barfree_witness :
    make_key [("a", Val.str "x")] ["a"] ≠ make_key [("a", Val.str "y")] ["a"] :=
  make_key_inj_barfree _ _ _ (by decide) (by decide) ⟨"a", by decide, by decide⟩

/-- C6 counterexample: the bool branch of cast raises on a plain string
instead of coercing it to null, and the int branch raises on a numeric
string with a fractional part (the unsafe Int64 cast), so the normalizer
is not raise-free. -/
theorem cast_raises_cex :
    Normalizer.cast (fun _ => none) (fun _ => none) [CVal.str "x"] "bool" =
        Except.error () ∧
      Normalizer.cast
        (fun s => if s = "1.5" then some (⟨3, 2, by norm_num, by norm_num⟩ : ℚ) else none)
        (fun _ => none) [CVal.str "1.5"] "int" = Except.error () :=
  ⟨by rfl, by rfl⟩

/-- C6 as amended: for the kinds other than int and bool (string, float,
datetime, and any unknown kind) cast never raises, and for the float and
datetime kinds every string the respective parser rejects comes out as the
null marker. -/
theorem cast_no_raise (pnum : String → Option ℚ) (pdate : String → Option ℚ)
    (s : List CVal) (kind : String) (h1 : kind ≠ "int") (h2 : kind ≠ "bool") :
    ∃ out, Normalizer.cast pnum pdate s kind = Except.ok out ∧
      (kind = "float" → ∀ i t, s.get? i = some (CVal.str t) → pnum t = none →
        out.get? i = some CVal.null) ∧
      (kind = "datetime" → ∀ i t, s.get? i = some (CVal.str t) → pdate t = none →
        out.get? i = some CVal.null) := by
  by_cases hs : kind = "string"
  · refine ⟨s.map (fun v => CVal.str (pyStrC v)), ?_, ?_, ?_⟩
    · rw [Normalizer.cast, if_pos hs]
    · intro hkf
      rw [hs] at hkf
      exact absurd hkf (by decide)
    · intro hkd
      rw [hs] at hkd
      exact absurd hkd (by decide)
  by_cases hf : kind = "float"
  · refine ⟨s.map (fun v => astype_float (to_numeric_cell pnum v)), ?_, ?_, ?_⟩
    · rw [Normalizer.cast, if_neg hs, if_neg h1, if_pos hf]
    · intro _ i t hget hnone
      rw [List.get?_map, hget]
      simp [to_numeric_cell, hnone, astype_float]
    · intro hkd
      rw [hf] at hkd
      exact absurd hkd (by decide)
  by_cases hd : kind = "datetime"
  · refine ⟨s.map (to_datetime_cell pdate), ?_, fun hkf => absurd hkf hf, ?_⟩
    · rw [Normalizer.cast, if_neg hs, if_neg h1, if_neg hf, if_pos hd]
    · intro _ i t hget hnone
      rw [List.get?_map, hget]
      simp [to_datetime_cell, hnone]
  · refine ⟨s, ?_, fun hkf => absurd hkf hf, fun hkd => absurd hkd hd⟩
    rw [Normalizer.cast, if_neg hs, if_neg h1, if_neg hf, if_neg hd, if_neg h2]

/-- Witness for the amended C6 at the datetime kind with a parser that
rejects the single cell. -/
theorem cast_no_raise_witness :
    ∃ out, Normalizer.cast (fun _ => none) (fun _ => none)
        [CVal.str "zz"] "datetime" = Except.ok out ∧
      ("datetime" = "float" → ∀ i t,
        ([CVal.str "zz"] : List CVal).get? i = some (CVal.str t) →
        (fun _ => (none : Option ℚ)) t = none → out.get? i = some CVal.null) ∧
      ("datetime" = "datetime" → ∀ i t,
        ([CVal.str "zz"] : List CVal).get? i = some (CVal.str t) →
        (fun _ => (none : Option ℚ)) t = none → out.get? i = some CVal.null) :=
  cast_no_raise _ _ _ _ (by decide) (by decide)
